import Mathlib

/-!
Verification of the scanning orchestration algorithm of `askalono`
(`src/strategy.rs`, `ScanStrategy::scan`).

The core under verification is `ScanStrategy::scan`: classify a document
against a store of license fingerprints, apply confidence thresholds, and
optionally run a bounded discovery loop that narrows, records and masks
sub-regions of the document.

The collaborators `Store` and `TextData` (and the `LicenseType` enum from
`license.rs`) are external to the file under verification; they are embedded
abstractly, following the interface contract the design document gives for
them.  Scores (`f32` in the source) are embedded as rationals: every claim in
scope is order-theoretic in the scores, never arithmetic on them.
-/

/-- Modelled from the spec: `LicenseType` lives in `license.rs`, which is not
part of the verified sources; the spec describes it as
`kind: enum{Header, Text, Alternate, ...}`. -/
inductive LicenseType where
  | header : LicenseType
  | text : LicenseType
  | alternate : LicenseType
deriving DecidableEq, Repr

/-- Structure `IdentifiedLicense` from `strategy.rs`: a license that was identified,
with its name and type. -/
structure IdentifiedLicense where
  name : String
  kind : LicenseType
deriving DecidableEq, Repr

/-- Structure `ContainedResult` from `strategy.rs`: a single license identified within a
larger text, with its score and the 0-indexed (inclusive, exclusive) line
range where it was found. -/
structure ContainedResult where
  score : ℚ
  license : IdentifiedLicense
  line_range : ℕ × ℕ
deriving DecidableEq, Repr

/-- Structure `ScanResult` from `strategy.rs`: confidence score of the overall match,
the identified overall license (if any), and any licenses found inside the
text when `optimize` was enabled. -/
structure ScanResult where
  score : ℚ
  license : Option IdentifiedLicense
  containing : List ContainedResult
deriving DecidableEq, Repr

/-- The `Analysis` value produced by `Store::analyze`: best-match score, the
matched license's name and type, and opaque match-context data (`μ`) that
`TextData::optimize_bounds` consumes. -/
structure Analysis (μ : Type) where
  score : ℚ
  name : String
  license_type : LicenseType
  data : μ
deriving DecidableEq, Repr

/-- Modelled from the spec: the `Store` collaborator (`store.rs` is not part
of the verified sources).  `analyze` returns the single best-scoring
registered license for a queried text, or fails (e.g. empty registry).  The
text type `τ`, match-context type `μ` and error type `ε` are abstract. -/
structure Store (τ μ ε : Type) where
  analyze : τ → Except ε (Analysis μ)

/-- Modelled from the spec: the `TextData` collaborator (`license.rs` is not
part of the verified sources).  `optimize_bounds` narrows a view against a
candidate's match context and reports the narrowed view's score;
`lines_view` is the view's 0-indexed half-open line range in the original
document; `white_out` masks the currently viewed lines, failing (`none`) when
the view has no determinate line range; `total_lines` is the document's line
count, used to state the range contract. -/
structure TextDataOps (τ μ : Type) where
  optimize_bounds : τ → μ → τ × ℚ
  lines_view : τ → ℕ × ℕ
  white_out : τ → Option τ
  total_lines : τ → ℕ

/-- Outcome of a failed scan.  `query e` embeds the `Err` the Rust code
propagates with `?` when `Store::analyze` fails; `internalPanic` embeds the
`.expect("optimized must have text")` panic taken when `white_out` returns
nothing inside the optimize loop — in Rust that is a process abort, never an
ordinary `Err`, so it is kept as a separate constructor. -/
inductive ScanError (ε : Type) where
  | query : ε → ScanError ε
  | internalPanic : ScanError ε
deriving DecidableEq, Repr

/-- Structure `ScanStrategy` from `strategy.rs`: a store reference plus the scan
configuration fields. -/
structure ScanStrategy (τ μ ε : Type) where
  store : Store τ μ ε
  confidence_threshold : ℚ
  shallow_limit : ℚ
  optimize : Bool
  max_passes : ℕ

/-- Constructor `ScanStrategy::new`: conservative defaults. -/
def ScanStrategy.new (store : Store τ μ ε) : ScanStrategy τ μ ε :=
  { store
    confidence_threshold := 9 / 10
    shallow_limit := 99 / 100
    optimize := false
    max_passes := 10 }

/-- The `ContainedResult` pushed by one optimize-loop iteration of
`ScanStrategy::scan`: the optimized score, an `IdentifiedLicense` built from
the analysis that drove the narrowing, and the narrowed view's line range. -/
def containedResult (ops : TextDataOps τ μ) (current_text : τ)
    (analysis : Analysis μ) : ContainedResult :=
  { score := (ops.optimize_bounds current_text analysis.data).2
    license := { name := analysis.name, kind := analysis.license_type }
    line_range :=
      ops.lines_view (ops.optimize_bounds current_text analysis.data).1 }

/-- The `for _n in 0..self.max_passes` discovery loop inside
`ScanStrategy::scan`, embedded as structural recursion on the remaining pass
count.  Each iteration: narrow the current text against the current analysis's
match context; break if the optimized score is below the confidence threshold;
otherwise push the `containedResult` of this iteration; then white-out the
narrowed view (panicking if it has no bounds) and re-analyze the masked text
for the next iteration.  Note the source performs the white-out and the
re-query (whose failure propagates) even on the final pass. -/
def scanLoop (s : ScanStrategy τ μ ε) (ops : TextDataOps τ μ) :
    ℕ → τ → Analysis μ → List ContainedResult →
    Except (ScanError ε) (List ContainedResult)
  | 0, _, _, containing => .ok containing
  | n + 1, current_text, analysis, containing =>
    if (ops.optimize_bounds current_text analysis.data).2 <
        s.confidence_threshold then
      .ok containing
    else
      match ops.white_out (ops.optimize_bounds current_text analysis.data).1 with
      | none => .error .internalPanic
      | some next_text =>
        match s.store.analyze next_text with
        | .error e => .error (.query e)
        | .ok analysis' =>
          scanLoop s ops n next_text analysis'
            (containing ++ [containedResult ops current_text analysis])

/-- Function `ScanStrategy::scan` from `strategy.rs`.  Query the store against the full
text; record the score; if the score exceeds the confidence threshold record
the overall license, and if it additionally exceeds the shallow limit return
immediately; otherwise, when `optimize` is set, run the discovery loop for at
most `max_passes` passes. -/
def ScanStrategy.scan (s : ScanStrategy τ μ ε) (ops : TextDataOps τ μ)
    (text : τ) : Except (ScanError ε) ScanResult :=
  match s.store.analyze text with
  | .error e => .error (.query e)
  | .ok analysis =>
    let score := analysis.score
    let license : Option IdentifiedLicense :=
      if s.confidence_threshold < analysis.score then
        some { name := analysis.name, kind := analysis.license_type }
      else
        none
    if s.confidence_threshold < analysis.score ∧
        s.shallow_limit < analysis.score then
      .ok { score, license, containing := [] }
    else if s.optimize then
      match scanLoop s ops s.max_passes text analysis [] with
      | .error e => .error e
      | .ok containing => .ok { score, license, containing }
    else
      .ok { score, license, containing := [] }

deriving instance DecidableEq for Except

/-- A concrete store for exercising the theorems: every query answers with
the same analysis at score 7/10 (below the default confidence threshold). -/
def cstore : Store Nat Unit Unit :=
  { analyze := fun _ =>
      .ok { score := 7 / 10, name := "L", license_type := .text, data := () } }

/-- Concrete text operations for exercising the theorems: narrowing always
succeeds at score 19/20 over line range [0, 1) of a 5-line document, and
white-out always succeeds. -/
def cops : TextDataOps Nat Unit :=
  { optimize_bounds := fun t _ => (t + 1, 19 / 20)
    lines_view := fun _ => (0, 1)
    white_out := fun t => some t
    total_lines := fun _ => 5 }

/-- A concrete strategy whose shallow limit (1/2) sits below its confidence
threshold (9/10), with optimization enabled. -/
def cstrategy : ScanStrategy Nat Unit Unit :=
  { store := cstore
    confidence_threshold := 9 / 10
    shallow_limit := 1 / 2
    optimize := true
    max_passes := 1 }

/-- Every successful run of the discovery loop returns the accumulator it was
started with, extended by at most one entry per remaining pass. -/
theorem scanLoop_ok_shape (s : ScanStrategy τ μ ε) (ops : TextDataOps τ μ) :
    ∀ n cur a acc out, scanLoop s ops n cur a acc = .ok out →
      ∃ tail, out = acc ++ tail ∧ tail.length ≤ n := by
  intro n
  induction n with
  | zero =>
    intro cur a acc out h
    simp only [scanLoop] at h
    injection h with h
    exact ⟨[], by simp [h], by simp⟩
  | succ n ih =>
    intro cur a acc out h
    simp only [scanLoop] at h
    split at h
    · injection h with h
      exact ⟨[], by simp [h], by simp⟩
    · split at h
      · exact absurd h (by simp)
      · split at h
        · exact absurd h (by simp)
        · obtain ⟨tail, htail, hlen⟩ := ih _ _ _ _ h
          refine ⟨containedResult ops cur a :: tail, ?_,
            by simpa using Nat.succ_le_succ hlen⟩
          simpa [List.append_assoc] using htail

/-- Characterization of every successful scan: the initial analysis fixes the
score and the license field, and `containing` is either empty or produced by
the discovery loop running from the full document (which requires `optimize`
and requires that the fast-exit was not taken). -/
theorem scan_ok_cases (s : ScanStrategy τ μ ε) (ops : TextDataOps τ μ)
    (text : τ) (r : ScanResult) (h : s.scan ops text = .ok r) :
    ∃ a, s.store.analyze text = .ok a ∧ r.score = a.score ∧
      r.license = (if s.confidence_threshold < a.score then
        some { name := a.name, kind := a.license_type } else none) ∧
      (r.containing = [] ∨
        (s.optimize = true ∧
         ¬(s.confidence_threshold < a.score ∧ s.shallow_limit < a.score) ∧
         scanLoop s ops s.max_passes text a [] = .ok r.containing)) := by
  unfold ScanStrategy.scan at h
  cases hA : s.store.analyze text with
  | error e =>
    rw [hA] at h
    exact absurd h (by simp)
  | ok a =>
    rw [hA] at h
    simp only at h
    refine ⟨a, rfl, ?_⟩
    split at h
    · rename_i hcond
      injection h with h
      subst h
      simp [hcond.1]
    · rename_i hcond
      split at h
      · rename_i hopt
        cases hL : scanLoop s ops s.max_passes text a [] with
        | error e =>
          rw [hL] at h
          exact absurd h (by simp)
        | ok containing =>
          rw [hL] at h
          injection h with h
          subst h
          exact ⟨rfl, rfl, Or.inr ⟨hopt, hcond, rfl⟩⟩
      · rename_i hopt
        injection h with h
        subst h
        exact ⟨rfl, rfl, Or.inl rfl⟩

/-- Claim C1 counterexample.  With `confidence_threshold = 9/10`,
`shallow_limit = 1/2` and `optimize = true`, a document whose overall score is
`7/10` exceeds the shallow limit, yet the discovery loop still runs and
records a contained license: the fast-exit is taken only when the overall
score also exceeds the confidence threshold, so the claim fails for
configurations with `confidence_threshold > shallow_limit`. -/
theorem scan_above_shallow_limit_still_optimizes :
    cstrategy.scan cops 0 =
      .ok { score := 7 / 10, license := none,
            containing := [{ score := 19 / 20,
                             license := { name := "L", kind := .text },
                             line_range := (0, 1) }] } ∧
    cstrategy.shallow_limit < 7 / 10 ∧ cstrategy.optimize = true := by
  refine ⟨?_, by norm_num [cstrategy], rfl⟩
  norm_num [ScanStrategy.scan, scanLoop, cstrategy, cstore, cops,
    containedResult]

/-- Claim C1 (amended): if the overall score exceeds both the confidence threshold
and the shallow limit, `scan` returns immediately with the overall license and
an empty `containing` list — the optimize discovery loop never executes,
regardless of the `optimize` setting. -/
theorem scan_fast_exit_skips_optimize (s : ScanStrategy τ μ ε)
    (ops : TextDataOps τ μ) (text : τ) (a : Analysis μ)
    (h : s.store.analyze text = .ok a)
    (h1 : s.confidence_threshold < a.score)
    (h2 : s.shallow_limit < a.score) :
    s.scan ops text =
      .ok { score := a.score
            license := some { name := a.name, kind := a.license_type }
            containing := [] } := by
  unfold ScanStrategy.scan
  rw [h]
  simp [h1, h2]

/-- Witness for the amended C1 theorem at a concrete input: threshold 1/2,
shallow limit 3/5, overall score 7/10, optimization enabled. -/
theorem scan_fast_exit_skips_optimize_witness :
    ScanStrategy.scan
        { store := cstore, confidence_threshold := 1 / 2,
          shallow_limit := 3 / 5, optimize := true, max_passes := 1 }
        cops 0 =
      .ok { score := 7 / 10
            license := some { name := "L", kind := .text }
            containing := [] } :=
  scan_fast_exit_skips_optimize _ cops 0 _ rfl (by norm_num) (by norm_num)

/-- The invariant-propagation workhorse for the discovery loop: if a predicate
`P` holds of every entry a loop iteration can record from a state satisfying
`inv`, and white-out preserves `inv`, then every entry of a successful loop
run satisfies `P`. -/
theorem scanLoop_ok_mem (s : ScanStrategy τ μ ε) (ops : TextDataOps τ μ)
    (P : ContainedResult → Prop) (inv : τ → Prop)
    (hrec : ∀ cur (a : Analysis μ), inv cur →
      ¬((ops.optimize_bounds cur a.data).2 < s.confidence_threshold) →
      P (containedResult ops cur a))
    (hstep : ∀ cur (a : Analysis μ) next, inv cur →
      ops.white_out (ops.optimize_bounds cur a.data).1 = some next →
      inv next) :
    ∀ n cur a acc out, inv cur → (∀ c ∈ acc, P c) →
      scanLoop s ops n cur a acc = .ok out → ∀ c ∈ out, P c := by
  intro n
  induction n with
  | zero =>
    intro cur a acc out hinv hacc h
    simp only [scanLoop] at h
    injection h with h
    exact h ▸ hacc
  | succ n ih =>
    intro cur a acc out hinv hacc h
    simp only [scanLoop] at h
    split at h
    · injection h with h
      exact h ▸ hacc
    · rename_i hscore
      split at h
      · exact absurd h (by simp)
      · rename_i next hwo
        split at h
        · exact absurd h (by simp)
        · rename_i a' hA
          refine ih next a' _ out (hstep cur a next hinv hwo) ?_ h
          intro c hc
          rcases List.mem_append.mp hc with hc | hc
          · exact hacc c hc
          · rw [List.mem_singleton] at hc
            exact hc ▸ hrec cur a hinv hscore

/-- A concrete store whose queries always answer at score 0. -/
def cstore0 : Store Nat Unit Unit :=
  { analyze := fun _ =>
      .ok { score := 0, name := "L", license_type := .text, data := () } }

/-- Concrete text operations whose narrowing always scores exactly 1/2. -/
def chalf : TextDataOps Nat Unit :=
  { optimize_bounds := fun t _ => (t + 1, 1 / 2)
    lines_view := fun _ => (0, 1)
    white_out := fun t => some t
    total_lines := fun _ => 5 }

/-- Claim C2 counterexample.  The loop breaks only when the optimized score is
strictly below the confidence threshold, so a region whose optimized score
exactly equals the threshold (here both `1/2`) is recorded: its score does
not strictly exceed the threshold. -/
theorem scan_contained_score_can_equal_threshold :
    ScanStrategy.scan
        { store := cstore0, confidence_threshold := 1 / 2,
          shallow_limit := 1, optimize := true, max_passes := 1 }
        chalf 0 =
      .ok { score := 0, license := none,
            containing := [{ score := 1 / 2,
                             license := { name := "L", kind := .text },
                             line_range := (0, 1) }] } ∧
    ¬((1 : ℚ) / 2 < 1 / 2) := by
  constructor
  · norm_num [ScanStrategy.scan, scanLoop, cstore0, chalf, containedResult]
  · norm_num

/-- Claim C2 (amended): every `ContainedResult` in a successful scan's `containing`
list has a score at least (≥) the configured confidence threshold; the loop
stops as soon as the optimized score falls strictly below the threshold, so no
entry scoring below the threshold is ever returned. -/
theorem scan_contained_scores_meet_threshold (s : ScanStrategy τ μ ε)
    (ops : TextDataOps τ μ) (text : τ) (r : ScanResult)
    (h : s.scan ops text = .ok r) :
    ∀ c ∈ r.containing, s.confidence_threshold ≤ c.score := by
  obtain ⟨a, hA, hscore, hlic, hcont⟩ := scan_ok_cases s ops text r h
  rcases hcont with hc | ⟨hopt, hfast, hloop⟩
  · simp [hc]
  · refine scanLoop_ok_mem s ops
      (fun c => s.confidence_threshold ≤ c.score) (fun _ => True)
      ?_ (fun _ _ _ _ _ => trivial)
      s.max_passes text a [] r.containing trivial (by simp) hloop
    intro cur a' hinv hsc
    simpa [containedResult] using not_lt.mp hsc

/-- Witness for the amended C2 theorem: the concrete scan of `cstrategy`
records one region at score 19/20, which is at least the threshold 9/10. -/
theorem scan_contained_scores_meet_threshold_witness :
    cstrategy.confidence_threshold ≤ 19 / 20 :=
  scan_contained_scores_meet_threshold cstrategy cops 0
    { score := 7 / 10, license := none,
      containing := [{ score := 19 / 20,
                       license := { name := "L", kind := .text },
                       line_range := (0, 1) }] }
    (by norm_num [ScanStrategy.scan, scanLoop, cstrategy, cstore, cops,
      containedResult])
    { score := 19 / 20, license := { name := "L", kind := .text },
      line_range := (0, 1) }
    (by simp)

/-- Claim C3: in every successful scan, the `license` field is `some` exactly when
the initial analysis's score strictly exceeds the confidence threshold, and
when present it carries that analysis's name and license type. -/
theorem scan_license_iff_above_threshold (s : ScanStrategy τ μ ε)
    (ops : TextDataOps τ μ) (text : τ) (a : Analysis μ) (r : ScanResult)
    (hA : s.store.analyze text = .ok a) (h : s.scan ops text = .ok r) :
    r.license = (if s.confidence_threshold < a.score then
      some { name := a.name, kind := a.license_type } else none) := by
  obtain ⟨a', hA', _, hlic, _⟩ := scan_ok_cases s ops text r h
  rw [hA] at hA'
  injection hA' with hA'
  rw [← hA'] at hlic
  exact hlic

/-- Witness for C3 at a concrete input: score 7/10 does not exceed threshold
9/10, so the license field is `none`. -/
theorem scan_license_iff_above_threshold_witness :
    (none : Option IdentifiedLicense) =
      (if (9 : ℚ) / 10 < 7 / 10 then
        some { name := "L", kind := LicenseType.text } else none) :=
  scan_license_iff_above_threshold cstrategy cops 0
    { score := 7 / 10, name := "L", license_type := .text, data := () }
    { score := 7 / 10, license := none,
      containing := [{ score := 19 / 20,
                       license := { name := "L", kind := .text },
                       line_range := (0, 1) }] }
    rfl
    (by norm_num [ScanStrategy.scan, scanLoop, cstrategy, cstore, cops,
      containedResult])

/-- Claim C8: the `score` field of a successful scan equals the score of the
initial full-document store query; nothing that happens afterwards (threshold
checks, the optimize loop, white-outs, re-queries) alters it. -/
theorem scan_score_is_initial_analysis_score (s : ScanStrategy τ μ ε)
    (ops : TextDataOps τ μ) (text : τ) (a : Analysis μ) (r : ScanResult)
    (hA : s.store.analyze text = .ok a) (h : s.scan ops text = .ok r) :
    r.score = a.score := by
  obtain ⟨a', hA', hscore, _, _⟩ := scan_ok_cases s ops text r h
  rw [hA] at hA'
  injection hA' with hA'
  rw [← hA'] at hscore
  exact hscore

/-- Witness for C8 at a concrete input: the returned score is the initial
query's 7/10 even though the optimize loop ran and scored a region 19/20. -/
theorem scan_score_is_initial_analysis_score_witness :
    (7 : ℚ) / 10 = 7 / 10 :=
  scan_score_is_initial_analysis_score cstrategy cops 0
    { score := 7 / 10, name := "L", license_type := .text, data := () }
    { score := 7 / 10, license := none,
      containing := [{ score := 19 / 20,
                       license := { name := "L", kind := .text },
                       line_range := (0, 1) }] }
    rfl
    (by norm_num [ScanStrategy.scan, scanLoop, cstrategy, cstore, cops,
      containedResult])

/-- Claim C5: a successful scan returns at most `max_passes` contained results;
with `max_passes = 0` the discovery loop never records anything, and with
`optimize = false` it never runs, so `containing` is empty in both cases. -/
theorem scan_containing_bounded (s : ScanStrategy τ μ ε)
    (ops : TextDataOps τ μ) (text : τ) (r : ScanResult)
    (h : s.scan ops text = .ok r) :
    r.containing.length ≤ s.max_passes ∧
    (s.max_passes = 0 → r.containing = []) ∧
    (s.optimize = false → r.containing = []) := by
  obtain ⟨a, hA, _, _, hcont⟩ := scan_ok_cases s ops text r h
  rcases hcont with hc | ⟨hopt, _, hloop⟩
  · simp [hc]
  · obtain ⟨tail, htail, hlen⟩ :=
      scanLoop_ok_shape s ops s.max_passes text a [] r.containing hloop
    simp only [List.nil_append] at htail
    refine ⟨by rw [htail]; exact hlen, ?_, ?_⟩
    · intro h0
      rw [h0] at hlen
      rw [htail, List.length_eq_zero.mp (Nat.le_zero.mp hlen)]
    · intro hoptf
      rw [hopt] at hoptf
      exact absurd hoptf (by simp)

/-- Witness for C5 at a concrete input: one contained result against
`max_passes = 1`, with `optimize = true` and `max_passes ≠ 0`. -/
theorem scan_containing_bounded_witness :
    ([({ score := 19 / 20, license := { name := "L", kind := .text },
         line_range := (0, 1) } : ContainedResult)]).length ≤
      cstrategy.max_passes ∧
    (cstrategy.max_passes = 0 →
      [({ score := 19 / 20, license := { name := "L", kind := .text },
          line_range := (0, 1) } : ContainedResult)] = []) ∧
    (cstrategy.optimize = false →
      [({ score := 19 / 20, license := { name := "L", kind := .text },
          line_range := (0, 1) } : ContainedResult)] = []) :=
  scan_containing_bounded cstrategy cops 0
    { score := 7 / 10, license := none,
      containing := [{ score := 19 / 20,
                       license := { name := "L", kind := .text },
                       line_range := (0, 1) }] }
    (by norm_num [ScanStrategy.scan, scanLoop, cstrategy, cstore, cops,
      containedResult])

/-- Claim C6: assuming the TextData contract — `optimize_bounds` yields views whose
line range is non-empty, half-open and within the document it narrowed, and
`white_out` preserves the document's line count — every contained result of a
successful scan has a line range `(start, end)` with
`0 ≤ start < end ≤ total_lines text`. -/
theorem scan_contained_line_ranges_in_bounds (s : ScanStrategy τ μ ε)
    (ops : TextDataOps τ μ) (text : τ) (r : ScanResult)
    (hOB : ∀ cur (d : μ),
      (ops.lines_view (ops.optimize_bounds cur d).1).1 <
        (ops.lines_view (ops.optimize_bounds cur d).1).2 ∧
      (ops.lines_view (ops.optimize_bounds cur d).1).2 ≤ ops.total_lines cur)
    (hWO : ∀ cur (d : μ) next,
      ops.white_out (ops.optimize_bounds cur d).1 = some next →
      ops.total_lines next = ops.total_lines cur)
    (h : s.scan ops text = .ok r) :
    ∀ c ∈ r.containing, 0 ≤ c.line_range.1 ∧
      c.line_range.1 < c.line_range.2 ∧
      c.line_range.2 ≤ ops.total_lines text := by
  obtain ⟨a, hA, _, _, hcont⟩ := scan_ok_cases s ops text r h
  rcases hcont with hc | ⟨_, _, hloop⟩
  · simp [hc]
  · refine scanLoop_ok_mem s ops _
      (fun cur => ops.total_lines cur = ops.total_lines text)
      ?_ ?_ s.max_passes text a [] r.containing rfl (by simp) hloop
    · intro cur a' hinv _
      obtain ⟨h1, h2⟩ := hOB cur a'.data
      refine ⟨Nat.zero_le _, by simpa [containedResult] using h1, ?_⟩
      rw [hinv] at h2
      simpa [containedResult] using h2
    · intro cur a' next hinv hwo
      rw [hWO cur a'.data next hwo]
      exact hinv

/-- Witness for C6 at a concrete input: the recorded range `(0, 1)` satisfies
the bounds against the 5-line document. -/
theorem scan_contained_line_ranges_in_bounds_witness :
    (0 : ℕ) ≤ 0 ∧ (0 : ℕ) < 1 ∧ (1 : ℕ) ≤ 5 :=
  scan_contained_line_ranges_in_bounds cstrategy cops 0
    { score := 7 / 10, license := none,
      containing := [{ score := 19 / 20,
                       license := { name := "L", kind := .text },
                       line_range := (0, 1) }] }
    (fun cur d => by simp [cops])
    (fun cur d next hw => by simp [cops])
    (by norm_num [ScanStrategy.scan, scanLoop, cstrategy, cstore, cops,
      containedResult])
    { score := 19 / 20, license := { name := "L", kind := .text },
      line_range := (0, 1) }
    (by simp)

/-- A concrete store that answers the full document (text id 0) at score 0
and fails every re-query of a masked text (id ≥ 1). -/
def cfailstore : Store Nat Unit Unit :=
  { analyze := fun t =>
      if t = 0 then
        .ok { score := 0, name := "L", license_type := .text, data := () }
      else
        .error () }

/-- Claim C4: a store query failure anywhere in a scan aborts it with a failure and
no partial result.  First conjunct: a failing initial query propagates.
Second conjunct: the discovery loop's outcome on failure is independent of the
results accumulated so far — entries discovered in earlier iterations are
discarded, never returned.  Third conjunct: a loop that ends in a failing
re-query makes the whole scan fail with that error. -/
theorem scan_query_failure_drops_partial_results (s : ScanStrategy τ μ ε)
    (ops : TextDataOps τ μ) (text : τ) :
    (∀ e, s.store.analyze text = .error e →
      s.scan ops text = .error (.query e)) ∧
    (∀ n cur (a : Analysis μ) acc acc' err,
      scanLoop s ops n cur a acc = .error err →
      scanLoop s ops n cur a acc' = .error err) ∧
    (∀ (a : Analysis μ) err, s.store.analyze text = .ok a →
      ¬(s.confidence_threshold < a.score ∧ s.shallow_limit < a.score) →
      s.optimize = true →
      scanLoop s ops s.max_passes text a [] = .error err →
      s.scan ops text = .error err) := by
  refine ⟨?_, ?_, ?_⟩
  · intro e he
    unfold ScanStrategy.scan
    rw [he]
  · intro n
    induction n with
    | zero =>
      intro cur a acc acc' err h
      simp [scanLoop] at h
    | succ n ih =>
      intro cur a acc acc' err h
      by_cases hsc : (ops.optimize_bounds cur a.data).2 < s.confidence_threshold
      · rw [scanLoop, if_pos hsc] at h
        exact absurd h (by simp)
      · cases hwo : ops.white_out (ops.optimize_bounds cur a.data).1 with
        | none =>
          rw [scanLoop, if_neg hsc, hwo] at h ⊢
          exact h
        | some next =>
          cases hA : s.store.analyze next with
          | error e =>
            rw [scanLoop, if_neg hsc, hwo] at h ⊢
            simp only [hA] at h ⊢
            exact h
          | ok a' =>
            rw [scanLoop, if_neg hsc, hwo] at h ⊢
            simp only [hA] at h ⊢
            exact ih next a' _ _ err h
  · intro a err hA hfast hopt hloop
    unfold ScanStrategy.scan
    rw [hA]
    simp only
    rw [if_neg hfast, if_pos hopt, hloop]

/-- Witness for C4: with `cfailstore` the loop records one region, then the
re-query of the masked text fails; the scan returns the failure and the
already-recorded region is not returned. -/
theorem scan_query_failure_drops_partial_results_witness :
    ScanStrategy.scan
        { store := cfailstore, confidence_threshold := 1 / 2,
          shallow_limit := 1, optimize := true, max_passes := 3 }
        cops 0 = .error (.query ()) :=
  (scan_query_failure_drops_partial_results _ cops 0).2.2
    { score := 0, name := "L", license_type := .text, data := () }
    (.query ()) rfl (by norm_num) rfl
    (by norm_num [scanLoop, cfailstore, cops, containedResult])

/-- Claim C7: the entry recorded by an optimize-loop iteration is exactly
`containedResult ops cur a` — built from the analysis `a` that drove this
iteration's narrowing — and its license carries that analysis's name and
license type.  The store is arbitrary here: the recorded identity does not
depend on what a re-query of the narrowed view would return. -/
theorem scan_contained_license_from_driving_analysis (s : ScanStrategy τ μ ε)
    (ops : TextDataOps τ μ) (n : ℕ) (cur : τ) (a : Analysis μ)
    (acc out : List ContainedResult)
    (h : scanLoop s ops (n + 1) cur a acc = .ok out)
    (hsc : ¬((ops.optimize_bounds cur a.data).2 < s.confidence_threshold)) :
    (out.drop acc.length).head? = some (containedResult ops cur a) ∧
    (containedResult ops cur a).license =
      { name := a.name, kind := a.license_type } := by
  refine ⟨?_, rfl⟩
  rw [scanLoop, if_neg hsc] at h
  cases hwo : ops.white_out (ops.optimize_bounds cur a.data).1 with
  | none =>
    rw [hwo] at h
    exact absurd h (by simp)
  | some next =>
    rw [hwo] at h
    cases hA : s.store.analyze next with
    | error e =>
      simp only [hA] at h
      exact absurd h (by simp)
    | ok a' =>
      simp only [hA] at h
      obtain ⟨tail, htail, _⟩ := scanLoop_ok_shape s ops n next a' _ out h
      rw [htail, List.append_assoc, List.drop_left]
      rfl

/-- Witness for C7 at a concrete input: the single recorded entry of the
concrete loop run carries the driving analysis's name "L" and kind. -/
theorem scan_contained_license_from_driving_analysis_witness :
    (([({ score := 19 / 20, license := { name := "L", kind := .text },
          line_range := (0, 1) } : ContainedResult)]).drop
        ([] : List ContainedResult).length).head? =
      some { score := 19 / 20, license := { name := "L", kind := .text },
             line_range := (0, 1) } ∧
    ({ score := 19 / 20, license := { name := "L", kind := .text },
       line_range := (0, 1) } : ContainedResult).license =
      { name := "L", kind := .text } :=
  scan_contained_license_from_driving_analysis cstrategy cops 0 0
    { score := 7 / 10, name := "L", license_type := .text, data := () }
    []
    [{ score := 19 / 20, license := { name := "L", kind := .text },
       line_range := (0, 1) }]
    (by norm_num [scanLoop, cstrategy, cstore, cops, containedResult])
    (by norm_num [cops, cstrategy])

/-- Under the `optimize_bounds` postcondition (its views can always be
whited out), no run of the discovery loop reaches the white-out panic. -/
theorem scanLoop_no_internal_panic (s : ScanStrategy τ μ ε)
    (ops : TextDataOps τ μ)
    (hdet : ∀ cur (d : μ),
      (ops.white_out (ops.optimize_bounds cur d).1).isSome) :
    ∀ n cur a acc, scanLoop s ops n cur a acc ≠ .error .internalPanic := by
  intro n
  induction n with
  | zero =>
    intro cur a acc h
    simp [scanLoop] at h
  | succ n ih =>
    intro cur a acc h
    by_cases hsc : (ops.optimize_bounds cur a.data).2 < s.confidence_threshold
    · rw [scanLoop, if_pos hsc] at h
      exact absurd h (by simp)
    · cases hwo : ops.white_out (ops.optimize_bounds cur a.data).1 with
      | none =>
        have hs := hdet cur a.data
        rw [hwo] at hs
        simp at hs
      | some next =>
        rw [scanLoop, if_neg hsc, hwo] at h
        cases hA : s.store.analyze next with
        | error e =>
          simp only [hA] at h
          exact absurd h (by simp)
        | ok a' =>
          simp only [hA] at h
          exact ih next a' _ h

/-- Claim C9: under the precondition that `optimize_bounds` always returns a view
with a determinate line range (one `white_out` accepts), a scan never ends in
the internal white-out panic; and that panic is a fatal condition distinct
from every ordinary (recoverable) query-failure value. -/
theorem scan_white_out_panic_unreachable (s : ScanStrategy τ μ ε)
    (ops : TextDataOps τ μ) (text : τ)
    (hdet : ∀ cur (d : μ),
      (ops.white_out (ops.optimize_bounds cur d).1).isSome) :
    s.scan ops text ≠ .error .internalPanic ∧
    ∀ e : ε, (ScanError.internalPanic : ScanError ε) ≠ .query e := by
  refine ⟨?_, fun e h => ScanError.noConfusion h⟩
  intro h
  unfold ScanStrategy.scan at h
  cases hA : s.store.analyze text with
  | error e =>
    rw [hA] at h
    simp at h
  | ok a =>
    rw [hA] at h
    simp only at h
    split at h
    · simp at h
    · split at h
      · cases hL : scanLoop s ops s.max_passes text a [] with
        | error err =>
          rw [hL] at h
          injection h with h
          rw [h] at hL
          exact scanLoop_no_internal_panic s ops hdet s.max_passes text a [] hL
        | ok containing =>
          rw [hL] at h
          simp at h
      · simp at h

/-- Witness for C9: the concrete collaborators (whose white-out always
succeeds) never produce the internal panic. -/
theorem scan_white_out_panic_unreachable_witness :
    cstrategy.scan cops 0 ≠ .error .internalPanic :=
  (scan_white_out_panic_unreachable cstrategy cops 0
    (fun cur d => by simp [cops])).1

/-- The discovery loop is a pure function of the store query function, the
text operations and the configuration: two extensionally equal collaborator
bundles drive it to the same outcome from the same state. -/
theorem scanLoop_congr (s₁ s₂ : ScanStrategy τ μ ε)
    (ops₁ ops₂ : TextDataOps τ μ)
    (hstore : ∀ t, s₁.store.analyze t = s₂.store.analyze t)
    (hct : s₁.confidence_threshold = s₂.confidence_threshold)
    (hob : ∀ t d, ops₁.optimize_bounds t d = ops₂.optimize_bounds t d)
    (hlv : ∀ t, ops₁.lines_view t = ops₂.lines_view t)
    (hwo : ∀ t, ops₁.white_out t = ops₂.white_out t) :
    ∀ n cur a acc,
      scanLoop s₁ ops₁ n cur a acc = scanLoop s₂ ops₂ n cur a acc := by
  intro n
  induction n with
  | zero =>
    intro cur a acc
    simp [scanLoop]
  | succ n ih =>
    intro cur a acc
    have hcr : containedResult ops₁ cur a = containedResult ops₂ cur a := by
      simp [containedResult, hob, hlv]
    rw [scanLoop, scanLoop, ← hob cur a.data, ← hct, ← hwo, ← hcr]
    by_cases hsc :
        (ops₁.optimize_bounds cur a.data).2 < s₁.confidence_threshold
    · rw [if_pos hsc, if_pos hsc]
    · rw [if_neg hsc, if_neg hsc]
      cases hwo' : ops₁.white_out (ops₁.optimize_bounds cur a.data).1 with
      | none => rfl
      | some next =>
        dsimp only
        rw [← hstore next]
        cases hA : s₁.store.analyze next with
        | error e => rfl
        | ok a' =>
          dsimp only
          exact ih next a' _

/-- Claim C10: scanning is deterministic.  Two scans of the same document whose
strategies have equal configuration fields and whose store query and text
operations agree as functions yield identical `ScanResult` values (same
score, license and `containing` sequence, in order). -/
theorem scan_deterministic (s₁ s₂ : ScanStrategy τ μ ε)
    (ops₁ ops₂ : TextDataOps τ μ) (text : τ)
    (hstore : ∀ t, s₁.store.analyze t = s₂.store.analyze t)
    (hct : s₁.confidence_threshold = s₂.confidence_threshold)
    (hsl : s₁.shallow_limit = s₂.shallow_limit)
    (hop : s₁.optimize = s₂.optimize)
    (hmp : s₁.max_passes = s₂.max_passes)
    (hob : ∀ t d, ops₁.optimize_bounds t d = ops₂.optimize_bounds t d)
    (hlv : ∀ t, ops₁.lines_view t = ops₂.lines_view t)
    (hwo : ∀ t, ops₁.white_out t = ops₂.white_out t) :
    s₁.scan ops₁ text = s₂.scan ops₂ text := by
  unfold ScanStrategy.scan
  rw [← hstore text]
  cases hA : s₁.store.analyze text with
  | error e => rfl
  | ok a =>
    simp only
    rw [← hct, ← hsl, ← hop, ← hmp,
      ← scanLoop_congr s₁ s₂ ops₁ ops₂ hstore hct hob hlv hwo
        s₁.max_passes text a []]

/-- Text operations extensionally equal to `cops` but syntactically
different, for exercising the determinism theorem. -/
def cops' : TextDataOps Nat Unit :=
  { optimize_bounds := fun t _ => (0 + (t + 1), 19 / 20)
    lines_view := fun _ => (0, 1)
    white_out := fun t => some (0 + t)
    total_lines := fun _ => 5 }

/-- Witness for C10: the concrete scan through `cops` and through the
extensionally equal `cops'` produce the identical result. -/
theorem scan_deterministic_witness :
    cstrategy.scan cops 0 = cstrategy.scan cops' 0 :=
  scan_deterministic cstrategy cstrategy cops cops' 0
    (fun t => rfl) rfl rfl rfl rfl
    (fun t d => by simp [cops, cops'])
    (fun t => rfl)
    (fun t => by simp [cops, cops'])
